import Mathlib

/-!
Verification of the lyrics/metadata retrieval core of the MusicStoryTeller
repository (`src/services/genius_service.py` and `src/models/song.py`).

Python strings are modelled as `List Char`; Python's `str.strip`, `str.split`,
the `in` substring test and the handful of concrete `re` patterns used by the
source are implemented directly on `List Char` (whitespace is modelled as the
six ASCII whitespace characters).  Dictionary-shaped API payloads are modelled
as typed records with optional fields, mirroring exactly the `.get` chains the
source performs; the external API and the web scraper are oracles (plain
functions) supplied to the operations that call them.  The unbounded
`while True` pagination loop is modelled with explicit fuel: `none` means the
fuel ran out before the loop finished, and termination claims are stated as
"some result is reached for every large enough fuel".
-/

/-- Python whitespace test, restricted to the six ASCII whitespace characters
(`str.strip()` / `str.split()` / regex class `\s`). -/
def pyIsSpace (c : Char) : Bool :=
  c = ' ' || c = '\t' || c = '\n' || c = '\r' || c = '\x0B' || c = '\x0C'

/-- Python `str.strip()`: drop leading and trailing whitespace. -/
def pyStrip (cs : List Char) : List Char :=
  List.reverse (List.dropWhile pyIsSpace (List.reverse (List.dropWhile pyIsSpace cs)))

/-- Does `s` start with `pat`? -/
def startsWith : List Char → List Char → Bool
  | [], _ => true
  | _ :: _, [] => false
  | p :: ps, c :: cs => p = c && startsWith ps cs

/-- Python `pat in s` substring test. -/
def containsSub (pat : List Char) : List Char → Bool
  | [] => startsWith pat []
  | c :: rest => startsWith pat (c :: rest) || containsSub pat rest

/-- Python `s.endswith(pat)`. -/
def endsWithList (pat s : List Char) : Bool :=
  startsWith (List.reverse pat) (List.reverse s)

/-- Python `s.lower()` (ASCII case folding suffices for the patterns used). -/
def lowerList (cs : List Char) : List Char := cs.map Char.toLower

/-- Case-insensitive `startsWith` for a pattern given in lowercase. -/
def ciStartsWith (pat s : List Char) : Bool :=
  startsWith pat (lowerList (List.take pat.length s))

/-- Python `s.split('\n')`. -/
def splitNl : List Char → List (List Char)
  | [] => [[]]
  | c :: rest =>
    if c = '\n' then [] :: splitNl rest
    else
      match splitNl rest with
      | [] => [[c]]
      | l :: ls => (c :: l) :: ls

/-- Python `'\n'.join(lines)`. -/
def joinNl : List (List Char) → List Char
  | [] => []
  | [l] => l
  | l :: ls => l ++ '\n' :: joinNl ls

def notSpace (c : Char) : Bool := !pyIsSpace c

/-- Fueled worker for `pyWords`; one unit of fuel is spent per character or
word, so fuel `cs.length` is always sufficient. -/
def pyWordsF : Nat → List Char → List (List Char)
  | 0, _ => []
  | _ + 1, [] => []
  | f + 1, c :: rest =>
    if pyIsSpace c then pyWordsF f rest
    else (c :: List.takeWhile notSpace rest) :: pyWordsF f (List.dropWhile notSpace rest)

/-- Python `s.split()` (split on whitespace runs, no empty words). -/
def pyWords (cs : List Char) : List (List Char) := pyWordsF cs.length cs

/-! ### Python `re.sub` for the concrete patterns used by `_format_lyrics`

`subAll t cs` scans `cs` left to right; at each position the matcher `t` either
matches a non-empty prefix of the remaining text (returning its length and the
replacement) or fails, in which case scanning advances one character — exactly
`re.sub`'s non-overlapping leftmost scan.  The matchers below implement the
source's patterns with Python's greedy/lazy backtracking order. -/

def subAllF (t : List Char → Option (Nat × List Char)) : Nat → List Char → List Char
  | 0, cs => cs
  | _ + 1, [] => []
  | f + 1, c :: rest =>
    match t (c :: rest) with
    | some (n, rep) =>
      if n = 0 then c :: subAllF t f rest
      else rep ++ subAllF t f (List.drop n (c :: rest))
    | none => c :: subAllF t f rest

def subAll (t : List Char → Option (Nat × List Char)) (cs : List Char) : List Char :=
  subAllF t cs.length cs

/-- No position of `cs` matches `t`. -/
def noSubMatch (t : List Char → Option (Nat × List Char)) : List Char → Bool
  | [] => true
  | c :: rest => (t (c :: rest)).isNone && noSubMatch t rest

def isDigitChar (c : Char) : Bool := '0' ≤ c && c ≤ '9'

/-- Candidate quantifier lengths `n, n-1, ..., 0` (greedy backtracking order). -/
def descRange (n : Nat) : List Nat := (List.range (n + 1)).reverse

def wsTake (cs : List Char) : Nat := (cs.takeWhile pyIsSpace).length

/-- Pattern `\n\s*\n\s*\n+` (replaced by `"\n\n"`), with greedy backtracking. -/
def tryCollapse (s : List Char) : Option (Nat × List Char) :=
  match s with
  | '\n' :: r =>
    (descRange (wsTake r)).findSome? fun a =>
      match List.drop a r with
      | '\n' :: r2 =>
        (descRange (wsTake r2)).findSome? fun b =>
          let k := ((List.drop b r2).takeWhile fun c => c = '\n').length
          if 1 ≤ k then some (1 + a + 1 + b + k, ['\n', '\n']) else none
      | _ => none
  | _ => none

/-- Pattern `[ \t]+` (replaced by a single space). -/
def trySpacesTab (s : List Char) : Option (Nat × List Char) :=
  let n := (s.takeWhile fun c => c = ' ' || c = '\t').length
  if 1 ≤ n then some (n, [' ']) else none

/-- Pattern `\n ` (replaced by `"\n"`). -/
def tryNlSpace : List Char → Option (Nat × List Char)
  | '\n' :: ' ' :: _ => some (2, ['\n'])
  | _ => none

/-- Pattern ` \n` (replaced by `"\n"`). -/
def trySpaceNl : List Char → Option (Nat × List Char)
  | ' ' :: '\n' :: _ => some (2, ['\n'])
  | _ => none

/-- Artifact pattern `\d+Embed$` (IGNORECASE, MULTILINE: `$` is end of text or
before a newline), removed. -/
def tryEmbed (s : List Char) : Option (Nat × List Char) :=
  let ds := s.takeWhile isDigitChar
  if ds.isEmpty then none
  else
    let rest := List.drop ds.length s
    if ciStartsWith ("embed".toList) rest then
      match List.drop 5 rest with
      | [] => some (ds.length + 5, [])
      | '\n' :: _ => some (ds.length + 5, [])
      | _ => none
    else none

/-- Artifact pattern `You might also like` (IGNORECASE), removed. -/
def tryYmal (s : List Char) : Option (Nat × List Char) :=
  if ciStartsWith ("you might also like".toList) s then
    some (("you might also like".toList).length, [])
  else none

/-- Artifact pattern `See .* LiveGet tickets as low as \$\d+`
(IGNORECASE, DOTALL: greedy `.*` crosses newlines), removed. -/
def trySeeLive (s : List Char) : Option (Nat × List Char) :=
  if ciStartsWith ("see ".toList) s then
    let rest := List.drop 4 s
    let lit := " liveget tickets as low as $".toList
    (descRange rest.length).findSome? fun m =>
      let r2 := List.drop m rest
      if ciStartsWith lit r2 then
        let k := ((List.drop lit.length r2).takeWhile isDigitChar).length
        if 1 ≤ k then some (4 + m + lit.length + k, []) else none
      else none
  else none

/-- Artifact pattern `ContributorsTranslations.*?Lyrics` (IGNORECASE, DOTALL,
lazy `.*?`), removed. -/
def tryContribTrans (s : List Char) : Option (Nat × List Char) :=
  let lit1 := "contributorstranslations".toList
  if ciStartsWith lit1 s then
    let rest := List.drop lit1.length s
    (List.range (rest.length + 1)).findSome? fun m =>
      if ciStartsWith ("lyrics".toList) (List.drop m rest) then
        some (lit1.length + m + 6, [])
      else none
  else none

/-- Artifact pattern `On ".*?" the .* track off.*?Read More`
(IGNORECASE, DOTALL; lazy, greedy, lazy quantifiers in that order), removed. -/
def tryOnTrack (s : List Char) : Option (Nat × List Char) :=
  if ciStartsWith ("on \"".toList) s then
    let r1 := List.drop 4 s
    (List.range (r1.length + 1)).findSome? fun m1 =>
      if ciStartsWith ("\" the ".toList) (List.drop m1 r1) then
        let r2 := List.drop (m1 + 6) r1
        (descRange r2.length).findSome? fun m2 =>
          if ciStartsWith (" track off".toList) (List.drop m2 r2) then
            let r3 := List.drop (m2 + 10) r2
            (List.range (r3.length + 1)).findSome? fun m3 =>
              if ciStartsWith ("read more".toList) (List.drop m3 r3) then
                some (4 + m1 + 6 + m2 + 10 + m3 + 9, [])
              else none
          else none
      else none
  else none

/-! ### The line-filtering loop of `_format_lyrics` -/

/-- The fixed word list of the contributor/translation line filter
(`genius_service.py`, line 436). -/
def lineWords : List String :=
  ["Contributors", "Translations", "Nederlands", "Türkçe", "Español", "Read More"]

/-- The structure-marker tokens that start lyrics capture (line 444). -/
def lineMarkers : List String :=
  ["[Verse", "[Chorus", "[Bridge", "[Outro", "[Intro", "[Pre-", "[Post-"]

/-- The lowercase skip words of the (dead) `elif` branch (line 447). -/
def skipWords : List String := ["read more", "embed", "you might also like"]

def wordFilterHit (line : List Char) : Bool :=
  lineWords.any fun w => containsSub w.toList line

def titleSuffixHit (line : List Char) : Bool :=
  endsWithList (" Lyrics".toList) line && decide ((pyWords line).length ≤ 3)

def hasMarker (line : List Char) : Bool :=
  lineMarkers.any fun w => containsSub w.toList line

def skipWordHit (line : List Char) : Bool :=
  skipWords.any fun w => containsSub w.toList (lowerList line)

/-- One iteration of the `for line in lines` loop of `_format_lyrics`, acting
on the already-stripped line.  The state is `(lyrics_started, clean_lines)`. -/
def formatStepCore (st : Bool × List (List Char)) (line : List Char) :
    Bool × List (List Char) :=
  if line.isEmpty then (if st.1 then (st.1, st.2 ++ [[]]) else st)
  else if wordFilterHit line then st
  else if titleSuffixHit line then st
  else if hasMarker line || st.1 then (true, st.2 ++ [line])
  else if st.1 && !line.isEmpty && !skipWordHit line then (st.1, st.2 ++ [line])
  else st

def formatStep (st : Bool × List (List Char)) (raw : List Char) :
    Bool × List (List Char) :=
  formatStepCore st (pyStrip raw)

/-- `formatStepCore` with the `elif` branch of line 447 deleted. -/
def formatStepPrunedCore (st : Bool × List (List Char)) (line : List Char) :
    Bool × List (List Char) :=
  if line.isEmpty then (if st.1 then (st.1, st.2 ++ [[]]) else st)
  else if wordFilterHit line then st
  else if titleSuffixHit line then st
  else if hasMarker line || st.1 then (true, st.2 ++ [line])
  else st

def formatStepPruned (st : Bool × List (List Char)) (raw : List Char) :
    Bool × List (List Char) :=
  formatStepPrunedCore st (pyStrip raw)

/-- The whole-text cleanup passes of `_format_lyrics` (lines 453-468),
applied innermost first, i.e. in source order: newline collapse, space
collapse, space-after-newline, space-before-newline, then the five artifact
patterns. -/
def regexPasses (t : List Char) : List Char :=
  subAll tryOnTrack (subAll tryContribTrans (subAll trySeeLive (subAll tryYmal
    (subAll tryEmbed (subAll trySpaceNl (subAll tryNlSpace (subAll trySpacesTab
      (subAll tryCollapse t))))))))

/-- `_format_lyrics`, parameterized by the per-line step function: split into
lines, run the line filter, join, run the cleanup passes, strip. -/
def formatWith (step : Bool × List (List Char) → List Char → Bool × List (List Char))
    (cs : List Char) : List Char :=
  pyStrip (regexPasses (joinNl ((splitNl cs).foldl step (false, [])).2))

/-- `GeniusClient._format_lyrics` on `List Char`. -/
def formatLyricsL : List Char → List Char := formatWith formatStep

/-- `_format_lyrics` with the dead `elif` branch removed. -/
def formatLyricsPrunedL : List Char → List Char := formatWith formatStepPruned

/-- `GeniusClient._format_lyrics` on `String`. -/
def formatLyrics (s : String) : String := ⟨formatLyricsL s.toList⟩

/-! ### `_extract_song_metadata` and the release-year regex search

`re.search(r'\b(19|20)\d{2}\b', s)`: `searchGo` scans left to right carrying
the previous character (for the left word boundary) and tries the token match
at each position. -/

def isWordChar (c : Char) : Bool := c.isAlphanum || c = '_'

def digVal (c : Char) : Nat := c.toNat - '0'.toNat

/-- Match `\b(19|20)\d{2}\b` at the current position, given the previous
character (`none` at the start of the string). -/
def tryYearHere (prev : Option Char) : List Char → Option Nat
  | a :: b :: c :: d :: rest =>
    if (match prev with
        | none => true
        | some p => !isWordChar p)
        && ((a = '1' && b = '9') || (a = '2' && b = '0'))
        && isDigitChar c && isDigitChar d
        && (match rest with
            | [] => true
            | e :: _ => !isWordChar e) then
      some (1000 * digVal a + 100 * digVal b + 10 * digVal c + digVal d)
    else none
  | _ => none

/-- `re.search` scan: leftmost match wins. -/
def searchGo (prev : Option Char) : List Char → Option Nat
  | [] => none
  | c :: rest =>
    match tryYearHere prev (c :: rest) with
    | some y => some y
    | none => searchGo (some c) rest

/-- The boundary-delimited year token match of the source's regex, expressed
at an absolute position `i` of `cs`. -/
def boundaryYearAt (cs : List Char) (i : Nat) : Option Nat :=
  tryYearHere (List.getLast? (List.take i cs)) (List.drop i cs)

/-- A mere 4-digit `(19|20)\d{2}` substring at position `i`, with no word
boundary requirement (the reading the spec sentence literally describes). -/
def looseYearAt (cs : List Char) (i : Nat) : Bool :=
  match List.drop i cs with
  | a :: b :: c :: d :: _ =>
    ((a = '1' && b = '9') || (a = '2' && b = '0')) && isDigitChar c && isDigitChar d
  | _ => false

/-- A tag entry of the `tags` list of a song-details payload (`tag.get("name")`). -/
structure TagInfo where
  name : Option String
  deriving DecidableEq

/-- The nested `album` object (`album.get("name")`). -/
structure AlbumInfo where
  name : Option String
  deriving DecidableEq

/-- The nested `primary_artist` object (`.get("name", "")`). -/
structure ArtistInfo where
  name : Option String
  deriving DecidableEq

/-- The song-details payload returned by `get_song_details`, restricted to the
fields the source reads.  `none` models an absent key (or, for `album` and
`primary_artist`, a falsy one — `None` or `{}` behave identically through the
`.get` chains the source performs). -/
structure SongDetails where
  album : Option AlbumInfo
  release_date_for_display : Option String
  tags : List TagInfo
  url : Option String
  title : Option String
  primary_artist : Option ArtistInfo
  deriving DecidableEq

/-- The result of `_extract_song_metadata`. -/
structure SongMetadata where
  album : Option String
  release_year : Option Nat
  genre : Option String
  deriving DecidableEq

/-- Python `", ".join(l)`. -/
def joinCommaSpace : List String → String
  | [] => ""
  | [s] => s
  | s :: rest => s ++ ", " ++ joinCommaSpace rest

/-- The release-year extraction of `_extract_song_metadata` (lines 137-145):
skip a falsy (absent or empty) display string, otherwise `re.search` for
`\b(19|20)\d{2}\b` and parse the match (the `int()` call cannot fail on a
4-ASCII-digit match, so the `ValueError` arm is dead). -/
def extractReleaseYear : Option String → Option Nat
  | none => none
  | some s => if s = "" then none else searchGo none s.toList

/-- The genre extraction of `_extract_song_metadata` (lines 147-152): keep
truthy tag names, join the first 3 with `", "`. -/
def extractGenre (tags : List TagInfo) : Option String :=
  match tags.filterMap fun t =>
    match t.name with
    | none => none
    | some n => if n = "" then none else some n with
  | [] => none
  | n :: rest => some (joinCommaSpace ((n :: rest).take 3))

/-- `GeniusClient._extract_song_metadata` (lines 131-154). -/
def extractSongMetadata (sd : SongDetails) : SongMetadata :=
  ⟨(match sd.album with
    | none => none
    | some a => a.name),
   extractReleaseYear sd.release_date_for_display,
   extractGenre sd.tags⟩

/-! ### `get_song_annotations` and `get_song_lyrics_with_annotations`

The external `/referents` endpoint is an oracle from the request parameters
the loop builds (`song_id`, `text_format="plain"`, `per_page=50`, `page`) to
an optional response (`none` = failed request).  The annotation list built by
the loop is named `annots` here (Python: `annotations`). -/

/-- One annotation entry of a referent, restricted to the fields read by the
loop body; `plainBody` models the `.get("body")`-then-`.get("plain")` chain
with its empty-dict and empty-string defaults. -/
structure AnnotData where
  id : Option Int
  plainBody : String
  url : Option String
  votesTotal : Int
  verified : Bool
  authors : List ArtistInfo
  deriving DecidableEq

/-- One top-level referent entry (`referent.get("fragment", "")` and its
`annotations` list, named `annots` here). -/
structure Referent where
  fragment : String
  annots : List AnnotData
  deriving DecidableEq

/-- One flattened record appended by the loop (lines 376-384). -/
structure AnnotRec where
  id : Option Int
  body : String
  fragment : String
  url : Option String
  votesTotal : Int
  verified : Bool
  author : String
  deriving DecidableEq

def mkAnnotRec (r : Referent) (a : AnnotData) : AnnotRec :=
  { id := a.id
    body := a.plainBody
    fragment := r.fragment
    url := a.url
    votesTotal := a.votesTotal
    verified := a.verified
    author :=
      match a.authors with
      | [] => "Unknown"
      | a0 :: _ => a0.name.getD "Unknown" }

/-- The nested `for referent in referents: for annotation in ...` flattening. -/
def flattenRefs : List Referent → List AnnotRec
  | [] => []
  | r :: rs => r.annots.map (mkAnnotRec r) ++ flattenRefs rs

/-- A `/referents` response: the referent list and `meta.last_page`
(`none` models an absent `last_page`, defaulted to 1 at the use site). -/
structure AnnotResponse where
  referents : List Referent
  lastPage : Option Nat
  deriving DecidableEq

/-- The query parameters built by each iteration (lines 356-361). -/
structure AnnotQuery where
  songId : Nat
  textFormat : String
  perPage : Nat
  page : Nat
  deriving DecidableEq

def mkAnnotQuery (songId page : Nat) : AnnotQuery := ⟨songId, "plain", 50, page⟩

/-- The `while True` pagination loop of `get_song_annotations` with explicit
fuel; `none` means the fuel ran out before the loop stopped. -/
def annotLoop (api : AnnotQuery → Option AnnotResponse) (songId : Nat) :
    Nat → Nat → List AnnotRec → Option (List AnnotRec)
  | 0, _, _ => none
  | fuel + 1, page, acc =>
    match api (mkAnnotQuery songId page) with
    | none => some acc
    | some resp =>
      if resp.referents.isEmpty then some acc
      else
        let acc2 := acc ++ flattenRefs resp.referents
        if page + 1 > resp.lastPage.getD 1 then some acc2
        else annotLoop api songId fuel (page + 1) acc2

/-- `GeniusClient.get_song_annotations` (lines 350-394): pages start at 1 with
an empty accumulator. -/
def getSongAnnots (api : AnnotQuery → Option AnnotResponse) (songId fuel : Nat) :
    Option (List AnnotRec) :=
  annotLoop api songId fuel 1 []

/-- The `Song` pydantic model (`models/song.py`), restricted to the fields the
assembler sets (`created_at` is a wall-clock timestamp and is not modelled).
The `annotations` field is named `annots`. -/
structure Song where
  id : Option Nat
  title : String
  artist : String
  album : Option String
  genre : Option String
  release_year : Option Nat
  lyrics : Option String
  lyrics_url : Option String
  annots : List String
  deriving DecidableEq

/-- The `ge=1900, le=2030` bound on `release_year` (absent value passes). -/
def yearOk : Option Nat → Bool
  | none => true
  | some y => decide (1900 ≤ y) && decide (y ≤ 2030)

/-- `Song(...)` construction: pydantic validates `min_length=1` on `title` and
`artist` and the `release_year` range, raising `ValidationError` otherwise. -/
def mkSong (id : Option Nat) (title artist : String) (album genre : Option String)
    (release_year : Option Nat) (lyrics lyrics_url : Option String)
    (annots : List String) : Except String Song :=
  if decide (1 ≤ title.length) && decide (1 ≤ artist.length) && yearOk release_year then
    Except.ok ⟨id, title, artist, album, genre, release_year, lyrics, lyrics_url, annots⟩
  else
    Except.error "ValidationError"

/-- The external behaviour visible to `get_song_lyrics_with_annotations` for
one song id: the song-details fetch result (`none` covers a failed request and
a falsy `song` payload, both of which make the assembler return `None`), the
`/referents` endpoint, and the lyrics scrape (`none` = no lyrics found). -/
structure GeniusOracle where
  details : Option SongDetails
  annotApi : AnnotQuery → Option AnnotResponse
  scrape : String → Option String

/-- `GeniusClient.get_song_lyrics_with_annotations` (lines 499-527).  The
outer `Option` is the fuel bound of the pagination loop (`none` = fuel ran
out, never a real behaviour); the `Except` layer is Python exception flow:
`Except.error` is a raised `ValidationError`, `Except.ok none` is `return
None`, and `Except.ok (some s)` is a returned `Song`. -/
def assemble (o : GeniusOracle) (songId fuel : Nat) :
    Option (Except String (Option Song)) :=
  match o.details with
  | none => some (Except.ok none)
  | some sd =>
    match getSongAnnots o.annotApi songId fuel with
    | none => none
    | some recs =>
      let md := extractSongMetadata sd
      let lyricsUrl := sd.url.getD ""
      let lyrics := if lyricsUrl = "" then none else o.scrape lyricsUrl
      let annotStrs := (recs.filter fun r => !(r.body == "")).map fun r =>
        r.fragment ++ ": " ++ r.body
      some ((mkSong (some songId) (sd.title.getD "")
        ((sd.primary_artist.bind ArtistInfo.name).getD "")
        md.album md.genre md.release_year lyrics (some lyricsUrl) annotStrs).map
        fun s => some s)

/-- The validation condition `mkSong` checks, phrased on a details payload:
exactly when it fails does assembly raise. -/
def detailsValid (sd : SongDetails) : Bool :=
  decide (1 ≤ (sd.title.getD "").length)
    && decide (1 ≤ ((sd.primary_artist.bind ArtistInfo.name).getD "").length)
    && yearOk (extractSongMetadata sd).release_year

/-- The loop-stopping conditions at page `N`: failed request or empty
referent list. -/
def stopPage (api : AnnotQuery → Option AnnotResponse) (songId N : Nat) : Prop :=
  api (mkAnnotQuery songId N) = none ∨
    ∃ r, api (mkAnnotQuery songId N) = some r ∧ r.referents.isEmpty = true

/-! ### Concrete inputs used by witnesses and counterexamples -/

/-- The 19 language names of the structural pass's language filter
(`genius_service.py`, line 229). -/
def langNames : List String :=
  ["Nederlands", "Türkçe", "Español", "srpski", "Русский", "Português", "فارسی",
   "Italiano", "Magyar", "Deutsch", "Français", "hrvatski", "Ελληνικά",
   "Українська", "Polski", "Română", "Slovenščina", "Čechy", "Català"]

def sdYearW : SongDetails :=
  ⟨none, some "June 2, 1999", [], none, none, none⟩

def sdYearX : SongDetails :=
  ⟨none, some "19999", [], none, none, none⟩

def oNoTitle : GeniusOracle :=
  { details := some ⟨none, none, [], none, none, some ⟨some "The Beatles"⟩⟩
    annotApi := fun _ => some ⟨[], none⟩
    scrape := fun _ => none }

def oNoDetails : GeniusOracle :=
  { details := none
    annotApi := fun _ => none
    scrape := fun _ => none }

def annA : AnnotData := ⟨some 11, "first explanation", none, 3, false, [⟨some "alice"⟩]⟩

def annB : AnnotData := ⟨some 12, "second explanation", none, 1, true, []⟩

def refA : Referent := ⟨"first fragment", [annA]⟩

def refB : Referent := ⟨"second fragment", [annB]⟩

/-- Two full pages (reporting `last_page = 2`) followed by an empty page. -/
def apiTwoPages : AnnotQuery → Option AnnotResponse := fun q =>
  if q.page = 1 then some ⟨[refA], some 2⟩
  else if q.page = 2 then some ⟨[refB], some 2⟩
  else some ⟨[], some 2⟩

/-- Two full pages followed by an empty page, with no `meta.last_page`
reported on any of them. -/
def apiNoMeta : AnnotQuery → Option AnnotResponse := fun q =>
  if q.page = 1 then some ⟨[refA], none⟩
  else if q.page = 2 then some ⟨[refB], none⟩
  else some ⟨[], none⟩

/-- Every page is empty. -/
def apiEmpty : AnnotQuery → Option AnnotResponse := fun _ => some ⟨[], none⟩

def oRoundTrip : GeniusOracle :=
  { details := some ⟨some ⟨some "Abbey Road"⟩, none, [], some "https://x.example/a",
      some "Hey Jude", some ⟨some "The Beatles"⟩⟩
    annotApi := apiEmpty
    scrape := fun _ => none }

/-- Metadata fetch succeeds with non-empty title and artist, but the display
date carries a year above the model's `le=2030` bound. -/
def oYear2045 : GeniusOracle :=
  { details := some ⟨none, some "June 2045", [], none, some "Far Song",
      some ⟨some "Future Artist"⟩⟩
    annotApi := apiEmpty
    scrape := fun _ => none }

def annEmptyBody : AnnotData := ⟨some 13, "", none, 0, false, []⟩

def oTwoAnnots : GeniusOracle :=
  { details := some ⟨none, none, [], none, some "Hey Jude", some ⟨some "The Beatles"⟩⟩
    annotApi := fun q =>
      if q.page = 1 then some ⟨[⟨"na na na", [annA, annEmptyBody]⟩], some 1⟩
      else some ⟨[], none⟩
    scrape := fun _ => none }

/-! ### Clean lyric text

`cleanLyricText` is the formal reading of "already-clean lyric text (no
boilerplate, proper markers)": it begins with a structure-marker line, every
line is stripped and survives the word / title-suffix filters, the text has no
surrounding whitespace, no tabs or doubled spaces, and no occurrence of any of
the whole-text cleanup patterns. -/

def noTab (cs : List Char) : Bool := !(cs.contains '\t')

def noDoubleSpace : List Char → Bool
  | [] => true
  | [_] => true
  | c :: d :: rest => !(c = ' ' && d = ' ') && noDoubleSpace (d :: rest)

def lineOk (l : List Char) : Bool :=
  (pyStrip l == l) && !wordFilterHit l && !titleSuffixHit l

def headMarker : List (List Char) → Bool
  | [] => false
  | h :: _ => hasMarker h

def cleanLyricText (cs : List Char) : Prop :=
  headMarker (splitNl cs) = true ∧ (splitNl cs).all lineOk = true ∧ pyStrip cs = cs
    ∧ noSubMatch tryCollapse cs = true ∧ noTab cs = true ∧ noDoubleSpace cs = true
    ∧ noSubMatch tryNlSpace cs = true ∧ noSubMatch trySpaceNl cs = true
    ∧ noSubMatch tryEmbed cs = true ∧ noSubMatch tryYmal cs = true
    ∧ noSubMatch trySeeLive cs = true ∧ noSubMatch tryContribTrans cs = true
    ∧ noSubMatch tryOnTrack cs = true

instance (cs : List Char) : Decidable (cleanLyricText cs) := by
  unfold cleanLyricText
  infer_instance

/-! ### Helper lemmas -/

theorem splitNl_ne_nil : ∀ cs : List Char, splitNl cs ≠ []
  | [] => by simp [splitNl]
  | c :: rest => by
    simp only [splitNl]
    split
    · simp
    · cases h : splitNl rest with
      | nil => simp
      | cons l ls => simp

theorem joinNl_splitNl : ∀ cs : List Char, joinNl (splitNl cs) = cs
  | [] => by simp [splitNl, joinNl]
  | c :: rest => by
    simp only [splitNl]
    split
    · rename_i hc
      have hne := splitNl_ne_nil rest
      cases h : splitNl rest with
      | nil => exact absurd h hne
      | cons l ls =>
        have ih := joinNl_splitNl rest
        rw [h] at ih
        subst hc
        cases ls with
        | nil => simp_all [joinNl]
        | cons l2 ls2 => simp_all [joinNl]
    · have hne := splitNl_ne_nil rest
      cases h : splitNl rest with
      | nil => exact absurd h hne
      | cons l ls =>
        have ih := joinNl_splitNl rest
        rw [h] at ih
        cases ls with
        | nil => simp_all [joinNl]
        | cons l2 ls2 => simp_all [joinNl]

/-- Splitting at an explicit newline after a newline-free chunk. -/
theorem splitNl_chunk : ∀ (l rest : List Char), l.contains '\n' = false →
    splitNl (l ++ '\n' :: rest) = l :: splitNl rest
  | [], rest, _ => by simp [splitNl]
  | c :: l', rest, h => by
    simp only [List.contains_cons, Bool.or_eq_false_iff] at h
    have hc' : ¬ c = '\n' := by
      have h1 := h.1
      simp only [beq_eq_false_iff_ne, ne_eq] at h1
      exact fun hh => h1 hh.symm
    have ih := splitNl_chunk l' rest h.2
    simp only [List.cons_append, splitNl, if_neg hc']
    have ih' : splitNl (l'.append ('\n' :: rest)) = l' :: splitNl rest := ih
    rw [ih']

theorem subAllF_of_noSubMatch (t : List Char → Option (Nat × List Char)) :
    ∀ (f : Nat) (cs : List Char), noSubMatch t cs = true → subAllF t f cs = cs
  | 0, _, _ => rfl
  | _ + 1, [], _ => rfl
  | f + 1, c :: rest, h => by
    simp only [noSubMatch, Bool.and_eq_true, Option.isNone_iff_eq_none] at h
    simp only [subAllF, h.1]
    rw [subAllF_of_noSubMatch t f rest h.2]

theorem subAll_of_noSubMatch (t : List Char → Option (Nat × List Char))
    (cs : List Char) (h : noSubMatch t cs = true) : subAll t cs = cs :=
  subAllF_of_noSubMatch t cs.length cs h

theorem noTab_tail {c : Char} {rest : List Char} (h : noTab (c :: rest) = true) :
    noTab rest = true := by
  simp only [noTab, List.contains_cons, Bool.not_eq_true', Bool.or_eq_false_iff] at h ⊢
  exact h.2

theorem noTab_head {c : Char} {rest : List Char} (h : noTab (c :: rest) = true) :
    ¬ c = '\t' := by
  simp only [noTab, List.contains_cons, Bool.not_eq_true', Bool.or_eq_false_iff] at h
  intro hc
  subst hc
  simp at h

theorem noDoubleSpace_tail {c : Char} {rest : List Char}
    (h : noDoubleSpace (c :: rest) = true) : noDoubleSpace rest = true := by
  cases rest with
  | nil => rfl
  | cons d rest' =>
    simp only [noDoubleSpace, Bool.and_eq_true] at h
    exact h.2

theorem noDoubleSpace_head {d : Char} {rest : List Char}
    (h : noDoubleSpace (' ' :: d :: rest) = true) : ¬ d = ' ' := by
  simp only [noDoubleSpace, Bool.and_eq_true, Bool.not_eq_true',
    Bool.and_eq_false_iff] at h
  rcases h.1 with h1 | h1
  · simp at h1
  · simpa using h1

theorem subAllF_spacesTab_id :
    ∀ (f : Nat) (cs : List Char), noTab cs = true → noDoubleSpace cs = true →
      subAllF trySpacesTab f cs = cs
  | 0, _, _, _ => rfl
  | _ + 1, [], _, _ => rfl
  | f + 1, c :: rest, htab, hds => by
    have htab' := noTab_tail htab
    have hds' := noDoubleSpace_tail hds
    by_cases hc : (c = ' ' || c = '\t') = true
    · have hcsp : c = ' ' := by
        rcases Bool.or_eq_true_iff.mp hc with h | h
        · simpa using h
        · exact absurd (by simpa using h) (noTab_head htab)
      subst hcsp
      have hrest : rest.takeWhile (fun c => c = ' ' || c = '\t') = [] := by
        cases rest with
        | nil => rfl
        | cons d rest' =>
          have hd1 : ¬ d = ' ' := noDoubleSpace_head hds
          have hd2 : ¬ d = '\t' := noTab_head htab'
          simp [List.takeWhile_cons, hd1, hd2]
      have hmatch : trySpacesTab (' ' :: rest) = some (1, [' ']) := by
        unfold trySpacesTab
        simp [List.takeWhile_cons, hrest]
      simp only [subAllF, hmatch]
      norm_num
      exact subAllF_spacesTab_id f rest htab' hds'
    · have hmatch : trySpacesTab (c :: rest) = none := by
        unfold trySpacesTab
        simp only [List.takeWhile_cons, hc]
        simp
      simp only [subAllF, hmatch]
      rw [subAllF_spacesTab_id f rest htab' hds']

theorem subAll_spacesTab_id (cs : List Char) (htab : noTab cs = true)
    (hds : noDoubleSpace cs = true) : subAll trySpacesTab cs = cs :=
  subAllF_spacesTab_id cs.length cs htab hds

theorem formatStepCore_eq_pruned (st : Bool × List (List Char)) (line : List Char) :
    formatStepCore st line = formatStepPrunedCore st line := by
  unfold formatStepCore formatStepPrunedCore
  by_cases h1 : line.isEmpty = true
  · simp [h1]
  · simp only [h1, if_false, Bool.false_eq_true]
    by_cases h2 : wordFilterHit line = true
    · simp [h2]
    · simp only [h2, if_false, Bool.false_eq_true]
      by_cases h3 : titleSuffixHit line = true
      · simp [h3]
      · simp only [h3, if_false, Bool.false_eq_true]
        by_cases h4 : (hasMarker line || st.1) = true
        · simp [h4]
        · have h4' : (hasMarker line || st.1) = false := Bool.eq_false_iff.mpr h4
          have hst : st.1 = false := (Bool.or_eq_false_iff.mp h4').2
          simp [h4, hst]

theorem formatStep_keep (l : List Char) (acc : List (List Char)) (h : lineOk l = true) :
    formatStep (true, acc) l = (true, acc ++ [l]) := by
  simp only [lineOk, Bool.and_eq_true, Bool.not_eq_true', beq_iff_eq] at h
  obtain ⟨⟨hstrip, hwf⟩, hts⟩ := h
  unfold formatStep formatStepCore
  rw [hstrip]
  by_cases hl : l.isEmpty = true
  · have : l = [] := by simpa using hl
    subst this
    simp
  · simp [hl, hwf, hts]

theorem foldl_formatStep_keep : ∀ (ls acc : List (List Char)),
    (∀ l ∈ ls, lineOk l = true) →
    List.foldl formatStep (true, acc) ls = (true, acc ++ ls)
  | [], acc, _ => by simp
  | l :: ls, acc, h => by
    have h1 := h l (List.mem_cons_self l ls)
    have h2 : ∀ x ∈ ls, lineOk x = true := fun x hx => h x (List.mem_cons_of_mem l hx)
    simp only [List.foldl_cons, formatStep_keep l acc h1]
    rw [foldl_formatStep_keep ls (acc ++ [l]) h2]
    simp

theorem hasMarker_ne_nil {l : List Char} (h : hasMarker l = true) : l.isEmpty = false := by
  cases hl : l with
  | nil =>
    rw [hl] at h
    exact absurd h (by decide)
  | cons c cs => simp

theorem formatStep_start (l : List Char) (hok : lineOk l = true)
    (hm : hasMarker l = true) : formatStep (false, []) l = (true, [l]) := by
  simp only [lineOk, Bool.and_eq_true, Bool.not_eq_true', beq_iff_eq] at hok
  obtain ⟨⟨hstrip, hwf⟩, hts⟩ := hok
  unfold formatStep formatStepCore
  rw [hstrip]
  simp [hasMarker_ne_nil hm, hwf, hts, hm]

theorem clean_fold (cs : List Char) (h1 : headMarker (splitNl cs) = true)
    (h2 : (splitNl cs).all lineOk = true) :
    List.foldl formatStep (false, []) (splitNl cs) = (true, splitNl cs) := by
  cases hsp : splitNl cs with
  | nil => exact absurd hsp (splitNl_ne_nil cs)
  | cons hd tl =>
    rw [hsp] at h1 h2
    simp only [headMarker] at h1
    simp only [List.all_cons, Bool.and_eq_true] at h2
    have hok : lineOk hd = true := h2.1
    have htl : ∀ l ∈ tl, lineOk l = true := fun l hl => (List.all_eq_true.mp h2.2) l hl
    simp only [List.foldl_cons, formatStep_start hd hok h1]
    rw [foldl_formatStep_keep tl [hd] htl]
    simp

theorem clean_passes (cs : List Char) (h : cleanLyricText cs) :
    pyStrip (regexPasses cs) = cs := by
  obtain ⟨-, -, hstrip, hcol, htab, hds, hnls, hsnl, hemb, hym, hsee, hct, hon⟩ := h
  unfold regexPasses
  rw [subAll_of_noSubMatch _ _ hcol, subAll_spacesTab_id cs htab hds,
    subAll_of_noSubMatch _ _ hnls, subAll_of_noSubMatch _ _ hsnl,
    subAll_of_noSubMatch _ _ hemb, subAll_of_noSubMatch _ _ hym,
    subAll_of_noSubMatch _ _ hsee, subAll_of_noSubMatch _ _ hct,
    subAll_of_noSubMatch _ _ hon]
  exact hstrip

theorem formatLyricsL_clean (cs : List Char) (h : cleanLyricText cs) :
    formatLyricsL cs = cs := by
  have hfold := clean_fold cs h.1 h.2.1
  unfold formatLyricsL formatWith
  rw [hfold]
  rw [joinNl_splitNl]
  exact clean_passes cs h

theorem formatStep_preCapture (raw : List Char) (acc : List (List Char))
    (h : hasMarker (pyStrip raw) = false) :
    formatStep (false, acc) raw = (false, acc) := by
  unfold formatStep formatStepCore
  by_cases h1 : (pyStrip raw).isEmpty = true
  · simp [h1]
  · by_cases h2 : wordFilterHit (pyStrip raw) = true
    · simp [h1, h2]
    · by_cases h3 : titleSuffixHit (pyStrip raw) = true
      · simp [h1, h2, h3]
      · simp [h1, h2, h3, h]

theorem formatStep_wordFilter (raw : List Char) (st : Bool × List (List Char))
    (h : wordFilterHit (pyStrip raw) = true) : formatStep st raw = st := by
  unfold formatStep formatStepCore
  have hne : (pyStrip raw).isEmpty = false := by
    cases hl : pyStrip raw with
    | nil =>
      rw [hl] at h
      exact absurd h (by decide)
    | cons c cs => simp
  simp [hne, h]

theorem wordFilterHit_of_readMore (l : List Char)
    (h : containsSub ("Read More".toList) l = true) : wordFilterHit l = true := by
  unfold wordFilterHit
  rw [List.any_eq_true]
  exact ⟨"Read More", by decide, h⟩

/-- Every entry of `langNames` is a newline-free line that is already
stripped and contains no structure marker. -/
theorem langNames_flat :
    langNames.all (fun n => !(n.toList.contains '\n') && !hasMarker (pyStrip n.toList)) = true := by
  decide

/-- Claim C10: the `elif` branch at line 447 of `genius_service.py` is dead
code: its guard requires `lyrics_started` to be true, but the branch is only
reached when the preceding `if` condition — which contains `lyrics_started`
as a disjunct — is false.  Hence `_format_lyrics` computes exactly the same
output as the variant with that branch deleted, on every input, and no
line-level filtering of "embed" or "You might also like" ever happens. -/
theorem c10_elif_dead (cs : List Char) : formatLyricsL cs = formatLyricsPrunedL cs := by
  unfold formatLyricsL formatLyricsPrunedL
  have hstep : formatStep = formatStepPruned := by
    funext st raw
    exact formatStepCore_eq_pruned st (pyStrip raw)
  rw [hstep]

/-- Claim C7: a line whose stripped form ends with `" Lyrics"` and has at
most 3 whitespace-separated tokens is dropped by the per-line filter from
every state — both before lyrics capture has started and after — and in the
spec's concrete scenario the repeated `"Yesterday Lyrics"` line is removed in
both positions. -/
theorem c7_title_suffix_dropped :
    (∀ (st : Bool × List (List Char)) (raw : List Char),
        endsWithList (" Lyrics".toList) (pyStrip raw) = true →
        (pyWords (pyStrip raw)).length ≤ 3 →
        formatStep st raw = st) ∧
      formatLyricsL (("Yesterday Lyrics\n[Verse 1]\nSome lyric line\nYesterday Lyrics").toList)
        = ("[Verse 1]\nSome lyric line").toList := by
  constructor
  · intro st raw hend hlen
    unfold formatStep formatStepCore
    have hne : (pyStrip raw).isEmpty = false := by
      cases hl : pyStrip raw with
      | nil =>
        rw [hl] at hend
        exact absurd hend (by decide)
      | cons c cs => simp
    by_cases h2 : wordFilterHit (pyStrip raw) = true
    · simp [hne, h2]
    · have h3 : titleSuffixHit (pyStrip raw) = true := by
        unfold titleSuffixHit
        rw [hend]
        simpa using hlen
      simp [hne, h2, h3]
  · decide

/-- Witness for C7 at the concrete line "Yesterday Lyrics" before capture. -/
theorem c7_title_suffix_dropped_witness :
    formatStep (false, []) (("Yesterday Lyrics").toList) = (false, []) :=
  c7_title_suffix_dropped.1 (false, []) (("Yesterday Lyrics").toList)
    (by decide) (by decide)

/-- Claim C8: the textual cleanup pass is the identity on clean lyric text —
text that starts with a structure-marker line, whose lines are stripped and
survive the boilerplate filters, and in which no whole-text cleanup pattern
occurs — and is therefore idempotent on such text. -/
theorem c8_format_idempotent (cs : List Char) (h : cleanLyricText cs) :
    formatLyricsL cs = cs ∧ formatLyricsL (formatLyricsL cs) = formatLyricsL cs := by
  have h1 := formatLyricsL_clean cs h
  refine ⟨h1, ?_⟩
  rw [h1]
  exact h1

/-- Witness for C8 on a concrete clean lyric text. -/
theorem c8_format_idempotent_witness :
    formatLyricsL (("[Verse 1]\nHello darkness my old friend\n\nHello again").toList)
        = ("[Verse 1]\nHello darkness my old friend\n\nHello again").toList ∧
      formatLyricsL (formatLyricsL (("[Verse 1]\nHello darkness my old friend\n\nHello again").toList))
        = formatLyricsL (("[Verse 1]\nHello darkness my old friend\n\nHello again").toList) :=
  c8_format_idempotent (("[Verse 1]\nHello darkness my old friend\n\nHello again").toList)
    (by decide)

/-- Claim C6: on an input made of a language-name-only line, a line
containing "Read More", then a `"[Verse 1]"` marker line followed by two
clean lyric lines, `_format_lyrics` returns exactly the marker line followed
by the two lyric lines, with both decoy lines absent. -/
theorem c6_decoys_removed (lang : String) (rm l1 l2 : List Char)
    (hlang : lang ∈ langNames)
    (hrm : containsSub ("Read More".toList) (pyStrip rm) = true)
    (hrmnl : rm.contains '\n' = false)
    (hbody : cleanLyricText (joinNl [("[Verse 1]").toList, l1, l2])) :
    formatLyricsL (lang.toList ++ '\n' :: (rm ++ '\n' :: joinNl [("[Verse 1]").toList, l1, l2]))
      = joinNl [("[Verse 1]").toList, l1, l2] := by
  have hlangf := (List.all_eq_true.mp langNames_flat) lang hlang
  simp only [Bool.and_eq_true, Bool.not_eq_true'] at hlangf
  obtain ⟨hlnl, hlmk⟩ := hlangf
  unfold formatLyricsL formatWith
  rw [splitNl_chunk lang.toList (rm ++ '\n' :: joinNl [("[Verse 1]").toList, l1, l2]) hlnl]
  rw [splitNl_chunk rm (joinNl [("[Verse 1]").toList, l1, l2]) hrmnl]
  simp only [List.foldl_cons]
  rw [formatStep_preCapture lang.toList [] hlmk]
  rw [formatStep_wordFilter rm (false, []) (wordFilterHit_of_readMore _ hrm)]
  rw [clean_fold _ hbody.1 hbody.2.1]
  rw [joinNl_splitNl]
  exact clean_passes _ hbody

/-- Witness for C6 at a concrete input. -/
theorem c6_decoys_removed_witness :
    formatLyricsL (("Nederlands").toList ++ '\n' :: (("Read More").toList ++ '\n' ::
        joinNl [("[Verse 1]").toList, ("Some lyric line").toList, ("Another lyric line").toList]))
      = joinNl [("[Verse 1]").toList, ("Some lyric line").toList, ("Another lyric line").toList] :=
  c6_decoys_removed "Nederlands" (("Read More").toList) (("Some lyric line").toList)
    (("Another lyric line").toList) (by decide) (by decide) (by decide) (by decide)

theorem tryYearHere_nil (p : Option Char) : tryYearHere p [] = none := rfl

/-- The `re.search` scan finds `some y` exactly when some position carries a
boundary-delimited year token and every earlier position carries none:
leftmost match wins. -/
theorem searchGo_iff : ∀ (suf pre : List Char) (y : Nat),
    searchGo (List.getLast? pre) suf = some y ↔
      ∃ i, pre.length ≤ i ∧ boundaryYearAt (pre ++ suf) i = some y ∧
        ∀ j, pre.length ≤ j → j < i → boundaryYearAt (pre ++ suf) j = none
  | [], pre, y => by
    simp only [searchGo]
    constructor
    · intro h
      exact absurd h (by simp)
    · rintro ⟨i, hle, hsome, -⟩
      have hdrop : List.drop i (pre ++ []) = [] := by
        rw [List.append_nil]
        exact List.drop_eq_nil_of_le hle
      rw [boundaryYearAt, hdrop, tryYearHere_nil] at hsome
      exact absurd hsome (by simp)
  | c :: rest, pre, y => by
    have hkey : boundaryYearAt (pre ++ c :: rest) pre.length
        = tryYearHere (List.getLast? pre) (c :: rest) := by
      rw [boundaryYearAt, List.take_left, List.drop_left]
    cases htry : tryYearHere (List.getLast? pre) (c :: rest) with
    | some y' =>
      simp only [searchGo, htry]
      constructor
      · intro h
        refine ⟨pre.length, le_refl _, ?_, fun j hj1 hj2 => absurd hj2 (by omega)⟩
        rw [hkey, htry, h]
      · rintro ⟨i, hle, hsome, hnone⟩
        rcases Nat.lt_or_ge pre.length i with hlt | hge
        · have hn := hnone pre.length (le_refl _) hlt
          rw [hkey, htry] at hn
          exact absurd hn (by simp)
        · have hieq : i = pre.length := by omega
          subst hieq
          rw [hkey, htry] at hsome
          exact hsome
    | none =>
      simp only [searchGo, htry]
      have hlast : List.getLast? (pre ++ [c]) = some c := by
        simp
      have ih := searchGo_iff rest (pre ++ [c]) y
      rw [hlast] at ih
      have heq : (pre ++ [c]) ++ rest = pre ++ c :: rest := by simp
      simp only [heq, List.length_append, List.length_singleton] at ih
      rw [ih]
      constructor
      · rintro ⟨i, hle, hsome, hnone⟩
        refine ⟨i, by omega, hsome, fun j hj1 hj2 => ?_⟩
        rcases Nat.eq_or_lt_of_le hj1 with heq2 | hlt
        · rw [← heq2, hkey, htry]
        · exact hnone j (by omega) hj2
      · rintro ⟨i, hle, hsome, hnone⟩
        have hine : i ≠ pre.length := by
          intro hh
          rw [hh, hkey, htry] at hsome
          exact absurd hsome (by simp)
        exact ⟨i, by omega, hsome, fun j hj1 hj2 => hnone j (by omega) hj2⟩

theorem searchGo_none_iff (cs : List Char) (y : Nat) :
    searchGo none cs = some y ↔
      ∃ i, boundaryYearAt cs i = some y ∧ ∀ j, j < i → boundaryYearAt cs j = none := by
  have h := searchGo_iff cs [] y
  constructor
  · intro hh
    obtain ⟨i, -, hsome, hnone⟩ := h.mp hh
    rw [List.nil_append] at hsome
    refine ⟨i, hsome, fun j hj => ?_⟩
    have := hnone j (Nat.zero_le j) hj
    rwa [List.nil_append] at this
  · rintro ⟨i, hsome, hnone⟩
    refine h.mpr ⟨i, Nat.zero_le i, ?_, fun j _ hj => ?_⟩
    · rwa [List.nil_append]
    · rw [List.nil_append]
      exact hnone j hj

theorem extractSongMetadata_ry (sd : SongDetails) :
    (extractSongMetadata sd).release_year
      = extractReleaseYear sd.release_date_for_display := rfl

theorem boundaryYearAt_nil (i : Nat) : boundaryYearAt [] i = none := by
  rw [boundaryYearAt, List.drop_nil, tryYearHere_nil]

/-- Claim C1 (amended): release-year extraction returns the value of the
first word-boundary-delimited `(19|20)\d{2}` token of the display date
string, and `none` when the field is absent or no such delimited token
occurs.  (A year substring embedded in a longer alphanumeric token does not
count: the source regex requires `\b` on both sides.) -/
theorem c1_release_year (sd : SongDetails) :
    (sd.release_date_for_display = none →
        (extractSongMetadata sd).release_year = none) ∧
      ∀ s : String, sd.release_date_for_display = some s →
        (((∀ i, boundaryYearAt s.toList i = none) →
            (extractSongMetadata sd).release_year = none) ∧
          ∀ y i, boundaryYearAt s.toList i = some y →
            (∀ j, j < i → boundaryYearAt s.toList j = none) →
            (extractSongMetadata sd).release_year = some y) := by
  constructor
  · intro h
    rw [extractSongMetadata_ry, h]
    rfl
  · intro s hs
    rw [extractSongMetadata_ry, hs]
    by_cases he : s = ""
    · subst he
      constructor
      · intro _
        rfl
      · intro y i hsome _
        have : boundaryYearAt (("" : String).toList) i = none := boundaryYearAt_nil i
        rw [this] at hsome
        exact absurd hsome (by simp)
    · constructor
      · intro hall
        rw [show extractReleaseYear (some s)
          = if s = "" then none else searchGo none s.toList from rfl]
        rw [if_neg he]
        cases hres : searchGo none s.toList with
        | none => rfl
        | some y =>
          obtain ⟨i, hsome, -⟩ := (searchGo_none_iff s.toList y).mp hres
          rw [hall i] at hsome
          exact absurd hsome (by simp)
      · intro y i hsome hnone
        rw [show extractReleaseYear (some s)
          = if s = "" then none else searchGo none s.toList from rfl]
        rw [if_neg he]
        exact (searchGo_none_iff s.toList y).mpr ⟨i, hsome, hnone⟩

/-- Witness for C1 on the display string "June 2, 1999": the boundary token
at position 8 is the first match, so the extracted year is 1999. -/
theorem c1_release_year_witness :
    (extractSongMetadata sdYearW).release_year = some 1999 :=
  ((c1_release_year sdYearW).2 "June 2, 1999" rfl).2 1999 8 (by decide) (by decide)

/-- Counterexample to C1 as stated: the display string "19999" contains the
4-digit substring "1999" beginning with "19" (at position 0), yet the
extraction yields `none`, because the source regex `\b(19|20)\d{2}\b`
requires word boundaries around the token. -/
theorem c1_release_year_counterexample :
    looseYearAt (("19999").toList) 0 = true ∧
      (extractSongMetadata sdYearX).release_year = none := by
  decide

theorem flattenRefs_append : ∀ (a b : List Referent),
    flattenRefs (a ++ b) = flattenRefs a ++ flattenRefs b
  | [], _ => rfl
  | r :: rs, b => by
    have ih : flattenRefs (rs.append b) = flattenRefs rs ++ flattenRefs b :=
      flattenRefs_append rs b
    simp only [List.cons_append, flattenRefs, ih, List.append_assoc]

theorem annotLoop_step_fail (api : AnnotQuery → Option AnnotResponse)
    (songId f page : Nat) (acc : List AnnotRec)
    (hapi : api (mkAnnotQuery songId page) = none) :
    annotLoop api songId (f + 1) page acc = some acc := by
  simp [annotLoop, hapi]

theorem annotLoop_step_empty (api : AnnotQuery → Option AnnotResponse)
    (songId f page : Nat) (acc : List AnnotRec) (resp : AnnotResponse)
    (hapi : api (mkAnnotQuery songId page) = some resp)
    (hemp : resp.referents.isEmpty = true) :
    annotLoop api songId (f + 1) page acc = some acc := by
  simp [annotLoop, hapi, hemp]

theorem annotLoop_step_lastpage (api : AnnotQuery → Option AnnotResponse)
    (songId f page : Nat) (acc : List AnnotRec) (resp : AnnotResponse)
    (hapi : api (mkAnnotQuery songId page) = some resp)
    (hne : resp.referents.isEmpty = false)
    (hlp : page + 1 > resp.lastPage.getD 1) :
    annotLoop api songId (f + 1) page acc
      = some (acc ++ flattenRefs resp.referents) := by
  simp [annotLoop, hapi, hne, hlp]

theorem annotLoop_step_continue (api : AnnotQuery → Option AnnotResponse)
    (songId f page : Nat) (acc : List AnnotRec) (resp : AnnotResponse)
    (hapi : api (mkAnnotQuery songId page) = some resp)
    (hne : resp.referents.isEmpty = false)
    (hlp : ¬ page + 1 > resp.lastPage.getD 1) :
    annotLoop api songId (f + 1) page acc
      = annotLoop api songId f (page + 1) (acc ++ flattenRefs resp.referents) := by
  simp [annotLoop, hapi, hne, hlp]

theorem annotLoop_mono (api : AnnotQuery → Option AnnotResponse) (songId : Nat) :
    ∀ (fuel fuel' page : Nat) (acc res : List AnnotRec), fuel ≤ fuel' →
      annotLoop api songId fuel page acc = some res →
      annotLoop api songId fuel' page acc = some res := by
  intro fuel
  induction fuel with
  | zero =>
    intro fuel' page acc res _ h
    exact absurd h (by simp [annotLoop])
  | succ f ih =>
    intro fuel' page acc res hle h
    obtain ⟨f2, rfl⟩ : ∃ f2, fuel' = f2 + 1 := ⟨fuel' - 1, by omega⟩
    cases hapi : api (mkAnnotQuery songId page) with
    | none =>
      rw [annotLoop_step_fail api songId f page acc hapi] at h
      rw [annotLoop_step_fail api songId f2 page acc hapi]
      exact h
    | some resp =>
      by_cases hemp : resp.referents.isEmpty = true
      · rw [annotLoop_step_empty api songId f page acc resp hapi hemp] at h
        rw [annotLoop_step_empty api songId f2 page acc resp hapi hemp]
        exact h
      · have hne : resp.referents.isEmpty = false := by
          simpa using hemp
        by_cases hlp : page + 1 > resp.lastPage.getD 1
        · rw [annotLoop_step_lastpage api songId f page acc resp hapi hne hlp] at h
          rw [annotLoop_step_lastpage api songId f2 page acc resp hapi hne hlp]
          exact h
        · rw [annotLoop_step_continue api songId f page acc resp hapi hne hlp] at h
          rw [annotLoop_step_continue api songId f2 page acc resp hapi hne hlp]
          exact ih f2 (page + 1) _ res (by omega) h

theorem annotLoop_stop (api : AnnotQuery → Option AnnotResponse) (songId : Nat) :
    ∀ (k page : Nat) (acc : List AnnotRec), stopPage api songId (page + k) →
      ∃ res, annotLoop api songId (k + 1) page acc = some res := by
  intro k
  induction k with
  | zero =>
    intro page acc hstop
    rcases hstop with h | ⟨r, hr, hemp⟩
    · exact ⟨acc, annotLoop_step_fail api songId 0 page acc (by simpa using h)⟩
    · exact ⟨acc, annotLoop_step_empty api songId 0 page acc r (by simpa using hr) hemp⟩
  | succ k ih =>
    intro page acc hstop
    have hstop' : stopPage api songId ((page + 1) + k) := by
      rw [show (page + 1) + k = page + (k + 1) by omega]
      exact hstop
    cases hapi : api (mkAnnotQuery songId page) with
    | none => exact ⟨acc, annotLoop_step_fail api songId (k + 1) page acc hapi⟩
    | some resp =>
      by_cases hemp : resp.referents.isEmpty = true
      · exact ⟨acc, annotLoop_step_empty api songId (k + 1) page acc resp hapi hemp⟩
      · have hne : resp.referents.isEmpty = false := by simpa using hemp
        by_cases hlp : page + 1 > resp.lastPage.getD 1
        · exact ⟨acc ++ flattenRefs resp.referents,
            annotLoop_step_lastpage api songId (k + 1) page acc resp hapi hne hlp⟩
        · obtain ⟨res, hres⟩ := ih (page + 1) (acc ++ flattenRefs resp.referents) hstop'
          exact ⟨res, by
            rw [annotLoop_step_continue api songId (k + 1) page acc resp hapi hne hlp]
            exact hres⟩

theorem annotLoop_bounded (api : AnnotQuery → Option AnnotResponse) (songId B : Nat)
    (hb : ∀ p r, api (mkAnnotQuery songId p) = some r → r.lastPage.getD 1 ≤ B) :
    ∀ (k : Nat), 1 ≤ k → ∀ (page : Nat) (acc : List AnnotRec), B + 2 ≤ page + k →
      ∃ res, annotLoop api songId k page acc = some res := by
  intro k
  induction k with
  | zero =>
    intro h
    exact absurd h (by omega)
  | succ k ih =>
    intro _ page acc hpk
    cases hapi : api (mkAnnotQuery songId page) with
    | none => exact ⟨acc, annotLoop_step_fail api songId k page acc hapi⟩
    | some resp =>
      by_cases hemp : resp.referents.isEmpty = true
      · exact ⟨acc, annotLoop_step_empty api songId k page acc resp hapi hemp⟩
      · have hne : resp.referents.isEmpty = false := by simpa using hemp
        by_cases hlp : page + 1 > resp.lastPage.getD 1
        · exact ⟨acc ++ flattenRefs resp.referents,
            annotLoop_step_lastpage api songId k page acc resp hapi hne hlp⟩
        · have h1 : page + 1 ≤ resp.lastPage.getD 1 := by omega
          have h2 : resp.lastPage.getD 1 ≤ B := hb page resp hapi
          have hk1 : 1 ≤ k := by omega
          obtain ⟨res, hres⟩ :=
            ih hk1 (page + 1) (acc ++ flattenRefs resp.referents) (by omega)
          exact ⟨res, by
            rw [annotLoop_step_continue api songId k page acc resp hapi hne hlp]
            exact hres⟩

/-- Claim C5: the pagination loop — which requests pages 1, 2, ... with page
size 50 and stops at the first failed request, empty referent page, or next
page number exceeding the reported last page (default 1) — terminates, with a
fuel-independent result, for every API that eventually serves a stopping page
or whose reported last-page counts are bounded. -/
theorem c5_pagination_terminates (api : AnnotQuery → Option AnnotResponse) (songId : Nat)
    (h : (∃ N, 1 ≤ N ∧ stopPage api songId N) ∨
      (∃ B, ∀ p r, api (mkAnnotQuery songId p) = some r → r.lastPage.getD 1 ≤ B)) :
    ∃ res fuel0, ∀ fuel, fuel0 ≤ fuel → getSongAnnots api songId fuel = some res := by
  rcases h with ⟨N, hN, hstop⟩ | ⟨B, hb⟩
  · have hstop' : stopPage api songId (1 + (N - 1)) := by
      rw [show 1 + (N - 1) = N by omega]
      exact hstop
    obtain ⟨res, hres⟩ := annotLoop_stop api songId (N - 1) 1 [] hstop'
    exact ⟨res, N - 1 + 1, fun fuel hf =>
      annotLoop_mono api songId (N - 1 + 1) fuel 1 [] res hf hres⟩
  · obtain ⟨res, hres⟩ :=
      annotLoop_bounded api songId B hb (B + 1) (by omega) 1 [] (by omega)
    exact ⟨res, B + 1, fun fuel hf =>
      annotLoop_mono api songId (B + 1) fuel 1 [] res hf hres⟩

/-- Witness for C5 on an API whose first page is already empty. -/
theorem c5_pagination_terminates_witness :
    ∃ res fuel0, ∀ fuel, fuel0 ≤ fuel → getSongAnnots apiEmpty 3 fuel = some res :=
  c5_pagination_terminates apiEmpty 3
    (Or.inl ⟨1, le_refl 1, Or.inr ⟨⟨[], none⟩, rfl, rfl⟩⟩)

/-- Claim C3 (amended): for a fake API serving two non-empty referent pages
and then an empty page, where page 1's response reports a last-page count of
at least 2 (so that the loop is allowed to request page 2), the fetched list
is exactly the page-order, referent-order flattening of the two non-empty
pages — each record carrying its parent referent's fragment, no
deduplication — so its length is the sum over the two pages. -/
theorem c3_two_pages (api : AnnotQuery → Option AnnotResponse) (songId : Nat)
    (r1 r2 : List Referent) (lp1 lp2 lp3 : Option Nat)
    (h1 : api (mkAnnotQuery songId 1) = some ⟨r1, lp1⟩)
    (h2 : api (mkAnnotQuery songId 2) = some ⟨r2, lp2⟩)
    (h3 : api (mkAnnotQuery songId 3) = some ⟨[], lp3⟩)
    (hr1 : r1.isEmpty = false) (hr2 : r2.isEmpty = false)
    (ha1 : ∃ ref ∈ r1, ref.annots ≠ []) (ha2 : ∃ ref ∈ r2, ref.annots ≠ [])
    (hlp1 : 2 ≤ lp1.getD 1) :
    ∀ fuel, 3 ≤ fuel →
      getSongAnnots api songId fuel = some (flattenRefs (r1 ++ r2)) := by
  intro fuel hf
  obtain ⟨f, rfl⟩ : ∃ f, fuel = f + 3 := ⟨fuel - 3, by omega⟩
  unfold getSongAnnots
  rw [annotLoop_step_continue api songId (f + 2) 1 [] ⟨r1, lp1⟩ h1 hr1
    (show ¬ 1 + 1 > lp1.getD 1 by omega)]
  by_cases hc : 2 + 1 > lp2.getD 1
  · rw [annotLoop_step_lastpage api songId (f + 1) 2 _ ⟨r2, lp2⟩ h2 hr2 hc]
    rw [flattenRefs_append]
    simp
  · rw [annotLoop_step_continue api songId (f + 1) 2 _ ⟨r2, lp2⟩ h2 hr2 hc]
    rw [annotLoop_step_empty api songId f 3 _ ⟨[], lp3⟩ h3 rfl]
    rw [flattenRefs_append]
    simp

/-- Witness for C3 on a concrete two-page API reporting `last_page = 2`. -/
theorem c3_two_pages_witness :
    getSongAnnots apiTwoPages 9 3 = some (flattenRefs ([refA] ++ [refB])) :=
  c3_two_pages apiTwoPages 9 [refA] [refB] (some 2) (some 2) (some 2)
    rfl rfl rfl rfl rfl (by decide) (by decide) (by decide) 3 (le_refl 3)

/-- Counterexample to C3 as stated: the same two non-empty pages followed by
an empty page, but with no `meta.last_page` reported.  The loop then stops
after page 1 (the default last page is 1), so the result has 1 record instead
of the 2 the claim promises. -/
theorem c3_counterexample :
    apiNoMeta (mkAnnotQuery 9 1) = some ⟨[refA], none⟩ ∧
      apiNoMeta (mkAnnotQuery 9 2) = some ⟨[refB], none⟩ ∧
      apiNoMeta (mkAnnotQuery 9 3) = some ⟨[], none⟩ ∧
      getSongAnnots apiNoMeta 9 9 = some (flattenRefs [refA]) ∧
      (flattenRefs [refA]).length = 1 ∧
      (flattenRefs [refA] ++ flattenRefs [refB]).length = 2 := by
  decide

/-- Claim C2 (amended): for every API behaviour for which the pagination
fuel suffices, assembly raises an exception exactly when the details payload
is present and the assembled field values violate the Song model's pydantic
validation (empty title or artist, or an extracted release year outside
1900-2030); every other failure degrades to an absent result or empty/None
field values. -/
theorem c2_exceptions_only_validation (o : GeniusOracle) (songId fuel : Nat)
    (res : Except String (Option Song)) (h : assemble o songId fuel = some res) :
    (∃ e, res = Except.error e) ↔
      ∃ sd, o.details = some sd ∧ detailsValid sd = false := by
  cases hd : o.details with
  | none =>
    simp only [assemble, hd] at h
    injection h with h
    constructor
    · rintro ⟨e, he⟩
      rw [← h] at he
      exact absurd he (by simp)
    · rintro ⟨sd, hsd, -⟩
      exact absurd hsd (by simp)
  | some sd =>
    simp only [assemble, hd] at h
    cases hg : getSongAnnots o.annotApi songId fuel with
    | none =>
      rw [hg] at h
      exact absurd h (by simp)
    | some recs =>
      rw [hg] at h
      simp only [mkSong] at h
      have hcond : (decide (1 ≤ (sd.title.getD "").length)
          && decide (1 ≤ ((sd.primary_artist.bind ArtistInfo.name).getD "").length)
          && yearOk (extractSongMetadata sd).release_year) = detailsValid sd := rfl
      rw [hcond] at h
      by_cases hv : detailsValid sd = true
      · rw [if_pos hv] at h
        injection h with h
        constructor
        · rintro ⟨e, he⟩
          rw [← h] at he
          exact absurd he (by simp [Except.map])
        · rintro ⟨sd', hsd', hvf⟩
          injection hsd' with hsd'
          rw [← hsd'] at hvf
          rw [hv] at hvf
          exact absurd hvf (by simp)
      · have hv' : detailsValid sd = false := by simpa using hv
        rw [if_neg hv] at h
        injection h with h
        constructor
        · intro _
          exact ⟨sd, rfl, hv'⟩
        · intro _
          exact ⟨"ValidationError", by rw [← h]; rfl⟩

/-- Witness for C2: with no details payload the assembly returns `None`
and, accordingly, no exception is raised. -/
theorem c2_exceptions_only_validation_witness :
    (∃ e, (Except.ok (none : Option Song) : Except String (Option Song))
        = Except.error e) ↔
      ∃ sd, oNoDetails.details = some sd ∧ detailsValid sd = false :=
  c2_exceptions_only_validation oNoDetails 7 3 (Except.ok none) rfl

/-- Counterexample to C2 as stated: an API payload whose `title` key is
missing makes `get_song_lyrics_with_annotations` raise a pydantic
`ValidationError` (the `Song` model requires `min_length=1`), rather than
degrading to an absent result. -/
theorem c2_counterexample :
    assemble oNoTitle 7 3 = some (Except.error "ValidationError") := rfl

/-- Claim C4 (amended): when the metadata fetch succeeds with a non-empty
title and artist and an extracted release year (if any) inside the model's
1900-2030 bounds, the annotation fetch returns an empty list and the lyrics
scrape returns absent, assembly still produces a Song with that non-empty
title and artist, an empty annotation-string list, and `lyrics = None`. -/
theorem c4_round_trip (o : GeniusOracle) (songId fuel : Nat) (sd : SongDetails)
    (hd : o.details = some sd)
    (ht : 1 ≤ (sd.title.getD "").length)
    (ha : 1 ≤ ((sd.primary_artist.bind ArtistInfo.name).getD "").length)
    (hy : yearOk (extractSongMetadata sd).release_year = true)
    (hann : getSongAnnots o.annotApi songId fuel = some [])
    (hscr : ∀ u, o.scrape u = none) :
    ∃ s : Song, assemble o songId fuel = some (Except.ok (some s)) ∧
      s.title = sd.title.getD "" ∧ s.title ≠ "" ∧
      s.artist = (sd.primary_artist.bind ArtistInfo.name).getD "" ∧ s.artist ≠ "" ∧
      s.annots = [] ∧ s.lyrics = none := by
  have hlyr : (if sd.url.getD "" = "" then none else o.scrape (sd.url.getD ""))
      = (none : Option String) := by
    by_cases hu : sd.url.getD "" = ""
    · simp [hu]
    · simp [hu, hscr]
  refine ⟨⟨some songId, sd.title.getD "", (sd.primary_artist.bind ArtistInfo.name).getD "",
    (extractSongMetadata sd).album, (extractSongMetadata sd).genre,
    (extractSongMetadata sd).release_year, none, some (sd.url.getD ""), []⟩,
    ?_, rfl, ?_, rfl, ?_, rfl, rfl⟩
  · simp only [assemble, hd, hann]
    rw [hlyr]
    simp only [mkSong, List.filter_nil, List.map_nil]
    rw [if_pos]
    · rfl
    · simp only [Bool.and_eq_true, decide_eq_true_eq]
      exact ⟨⟨ht, ha⟩, hy⟩
  · intro hh
    have hh' : sd.title.getD "" = "" := hh
    rw [hh'] at ht
    exact absurd ht (by decide)
  · intro hh
    have hh' : (sd.primary_artist.bind ArtistInfo.name).getD "" = "" := hh
    rw [hh'] at ha
    exact absurd ha (by decide)

/-- Witness for C4 on a concrete oracle whose annotation pages are empty and
whose scrape always fails. -/
theorem c4_round_trip_witness :
    ∃ s : Song, assemble oRoundTrip 7 2 = some (Except.ok (some s)) ∧
      s.title = "Hey Jude" ∧ s.title ≠ "" ∧
      s.artist = "The Beatles" ∧ s.artist ≠ "" ∧
      s.annots = [] ∧ s.lyrics = none :=
  c4_round_trip oRoundTrip 7 2
    ⟨some ⟨some "Abbey Road"⟩, none, [], some "https://x.example/a",
      some "Hey Jude", some ⟨some "The Beatles"⟩⟩
    rfl (by decide) (by decide) (by decide) rfl (fun _ => rfl)

/-- Counterexample to C4 as stated: metadata fetch succeeds with non-empty
title and artist, the annotation fetch returns an empty list, and the scrape
is absent, yet assembly produces a ValidationError instead of a Song record,
because the display date "June 2045" yields a release year above the model's
2030 bound. -/
theorem c4_counterexample :
    oYear2045.details = some ⟨none, some "June 2045", [], none, some "Far Song",
        some ⟨some "Future Artist"⟩⟩ ∧
      getSongAnnots oYear2045.annotApi 7 2 = some [] ∧
      assemble oYear2045 7 2 = some (Except.error "ValidationError") :=
  ⟨rfl, rfl, rfl⟩

/-- Claim C9: in every assembled Song, the annotation-string list is obtained
from the fetched annotation records by dropping every record with an empty
body and formatting each survivor as `"<fragment>: <body>"`, in order. -/
theorem c9_annot_strings (o : GeniusOracle) (songId fuel : Nat) (sd : SongDetails)
    (recs : List AnnotRec) (s : Song)
    (hd : o.details = some sd)
    (hg : getSongAnnots o.annotApi songId fuel = some recs)
    (h : assemble o songId fuel = some (Except.ok (some s))) :
    s.annots = ((recs.filter fun r => !(r.body == "")).map fun r =>
      r.fragment ++ ": " ++ r.body) := by
  simp only [assemble, hd, hg] at h
  simp only [mkSong] at h
  by_cases hv : (decide (1 ≤ (sd.title.getD "").length)
      && decide (1 ≤ ((sd.primary_artist.bind ArtistInfo.name).getD "").length)
      && yearOk (extractSongMetadata sd).release_year) = true
  · rw [if_pos hv] at h
    simp only [Except.map] at h
    injection h with h
    injection h with h
    injection h with h
    rw [← h]
  · rw [if_neg hv] at h
    simp only [Except.map] at h
    injection h with h
    exact absurd h (by simp)

/-- Witness for C9 on an oracle with one referent carrying one non-empty and
one empty-bodied annotation entry: only the non-empty one survives. -/
theorem c9_annot_strings_witness :
    (⟨some 5, "Hey Jude", "The Beatles", none, none, none, none, some "",
        ["na na na: first explanation"]⟩ : Song).annots
      = (((flattenRefs [⟨"na na na", [annA, annEmptyBody]⟩]).filter
            fun r => !(r.body == "")).map fun r => r.fragment ++ ": " ++ r.body) :=
  c9_annot_strings oTwoAnnots 5 2 _ _ _ rfl rfl rfl
